import Mathlib

/-!
Shallow embedding of the USB4000 spectrometer driver (src/oceanoptics.py).

The driver talks to four unidirectional bulk channels.  We model the
transport as the byte streams the three input channels will deliver, plus a
trace of the I/O operations the driver performs, in order.  A channel read
delivers exactly the requested number of bytes when the stream holds enough
of them (the claims under study all concern such transports) and fails with
a transport error otherwise.  Assertions in the Python source are modelled
as a typed ProtocolError result, following the spec's error taxonomy.
Bytes are natural numbers (< 256 on any real transport); machine integers
are Nat/Int with explicit arithmetic.
-/

/-- The four bulk channels of the device (§2 of the spec; endpoints
0x01, 0x81, 0x86, 0x82 in the source's `__init__`). -/
inductive Chan
  | cmdOut
  | cmdIn
  | specLo
  | specHi
deriving DecidableEq, Repr

/-- One I/O event performed by the driver: a write of concrete bytes to a
channel, or a read of `n` bytes with the given timeout (ms). -/
inductive Ev
  | wr (c : Chan) (bs : List Nat)
  | rd (c : Chan) (n : Nat) (timeout : Nat)
deriving DecidableEq, Repr

/-- Errors a driver operation can surface.  `ProtocolError` replaces the
source's `assert` statements on echo/sync bytes; `TransportError` models a
failed/short channel read; `StructError` models Python's struct.error on
out-of-range pack arguments. -/
inductive DriverError
  | ProtocolError
  | TransportError
  | StructError
deriving DecidableEq, Repr

/-- Transport state: the pending byte streams of the three IN channels and
the ordered trace of operations performed so far. -/
structure TState where
  specLo : List Nat
  specHi : List Nat
  cmdIn : List Nat
  trace : List Ev
deriving DecidableEq, Repr

/-- The pending stream of a channel (the OUT channel delivers nothing). -/
def chanStream (s : TState) : Chan → List Nat
  | .specLo => s.specLo
  | .specHi => s.specHi
  | .cmdIn => s.cmdIn
  | .cmdOut => []

/-- Replace the pending stream of a channel. -/
def setStream (s : TState) (c : Chan) (bs : List Nat) : TState :=
  match c with
  | .specLo => { s with specLo := bs }
  | .specHi => { s with specHi := bs }
  | .cmdIn => { s with cmdIn := bs }
  | .cmdOut => s

/-- `endpoint.write(bytes)`: record the write in the trace. -/
def doWrite (s : TState) (c : Chan) (bs : List Nat) : TState :=
  { s with trace := s.trace ++ [Ev.wr c bs] }

/-- `endpoint.read(n, timeout)`: deliver exactly `n` bytes off the front of
the channel's stream, recording the read in the trace; a stream with fewer
than `n` bytes pending is a transport failure. -/
def doRead (s : TState) (c : Chan) (n : Nat) (timeout : Nat) :
    Except DriverError (List Nat × TState) :=
  let st := chanStream s c
  if n ≤ st.length then
    .ok (st.take n,
      setStream { s with trace := s.trace ++ [Ev.rd c n timeout] } c (st.drop n))
  else
    .error .TransportError

/-- A 16-bit little-endian sample from two bytes. -/
def u16le (lo hi : Nat) : Nat := lo + 256 * hi

/-- A 16-bit big-endian value from two bytes (struct format `>H`). -/
def u16be (hi lo : Nat) : Nat := 256 * hi + lo

/-- A 32-bit little-endian value from four bytes (struct format `<I`). -/
def u32le (b0 b1 b2 b3 : Nat) : Nat :=
  b0 + 256 * b1 + 256 ^ 2 * b2 + 256 ^ 3 * b3

/-- The 4-byte little-endian encoding of a 32-bit value (struct `<I`). -/
def u32leBytes (n : Nat) : List Nat :=
  [n % 256, n / 256 % 256, n / 256 ^ 2 % 256, n / 256 ^ 3 % 256]

/-- The 2-byte little-endian encoding of a 16-bit value (struct `<H`). -/
def u16leBytes (n : Nat) : List Nat :=
  [n % 256, n / 256 % 256]

/-- A signed 16-bit little-endian value from two bytes (struct `<h`). -/
def i16le (lo hi : Nat) : Int :=
  if u16le lo hi < 32768 then (u16le lo hi : Int) else (u16le lo hi : Int) - 65536

/-- `numpy.frombuffer(_, dtype=LE u16)`: reinterpret a byte buffer as
consecutive 16-bit little-endian samples, in buffer order. -/
def frombufferU16LE : List Nat → List Nat
  | lo :: hi :: rest => u16le lo hi :: frombufferU16LE rest
  | _ => []

/-- `USB4000.request_spectra`: send opcode 0x09 on the command channel,
read 512*4 bytes from the low spectral channel and 512*11 bytes from the
high spectral channel (20 ms timeouts), read one further sync byte from the
high channel, require it to be 0x69, and return the low samples followed by
the high samples as 16-bit little-endian values. -/
def request_spectra (s : TState) : Except DriverError (List Nat × TState) :=
  let s := doWrite s .cmdOut [0x09]
  match doRead s .specLo (512 * 4) 20 with
  | .error e => .error e
  | .ok (data_lo, s) =>
    match doRead s .specHi (512 * 11) 20 with
    | .error e => .error e
    | .ok (data_hi, s) =>
      match doRead s .specHi 1 20 with
      | .error e => .error e
      | .ok (data_sync, s) =>
        if data_sync.headD 0 = 0x69 then
          .ok (frombufferU16LE data_lo ++ frombufferU16LE data_hi, s)
        else
          .error .ProtocolError

instance {ε α : Type} [DecidableEq ε] [DecidableEq α] :
    DecidableEq (Except ε α) := fun x y =>
  match x, y with
  | .ok a, .ok b =>
    if h : a = b then .isTrue (by rw [h]) else .isFalse (by simp [h])
  | .error a, .error b =>
    if h : a = b then .isTrue (by rw [h]) else .isFalse (by simp [h])
  | .ok _, .error _ => .isFalse (by simp)
  | .error _, .ok _ => .isFalse (by simp)

theorem frombufferU16LE_lt : ∀ l : List Nat, (∀ b ∈ l, b < 256) →
    ∀ v ∈ frombufferU16LE l, v < 65536
  | [] => by simp [frombufferU16LE]
  | [_] => by simp [frombufferU16LE]
  | lo :: hi :: rest => by
    intro h v hv
    simp only [frombufferU16LE, List.mem_cons] at hv
    rcases hv with rfl | hv
    · have hlo : lo < 256 := h lo (by simp)
      have hhi : hi < 256 := h hi (by simp)
      simp only [u16le]
      omega
    · exact frombufferU16LE_lt rest (fun b hb => h b (by simp [hb])) v hv

theorem frombufferU16LE_length : ∀ l : List Nat,
    (frombufferU16LE l).length = l.length / 2
  | [] => by simp [frombufferU16LE]
  | [_] => by simp [frombufferU16LE]
  | lo :: hi :: rest => by
    simp [frombufferU16LE, frombufferU16LE_length rest]
    omega

/-- The fixed register-index → register-name table `config_regs` of the
source (indices 0–18). -/
def config_regs : Nat → String
  | 0 => "serial_number"
  | 1 => "0_order_wavelength_coeff"
  | 2 => "1_order_wavelength_coeff"
  | 3 => "2_order_wavelength_coeff"
  | 4 => "3_order_wavelength_coeff"
  | 5 => "stray_light_constant"
  | 6 => "0_order_nonlinear_coeff"
  | 7 => "1_order_nonlinear_coeff"
  | 8 => "2_order_nonlinear_coeff"
  | 9 => "3_order_nonlinear_coeff"
  | 10 => "4_order_nonlinear_coeff"
  | 11 => "5_order_nonlinear_coeff"
  | 12 => "6_order_nonlinear_coeff"
  | 13 => "7_order_nonlinear_coeff"
  | 14 => "polynomial_order"
  | 15 => "bench_configuration"
  | 16 => "USB4000_config"
  | 17 => "autonull"
  | 18 => "baud_rate"
  | _ => ""

/-- `resp[2:].decode(ascii, errors=ignore)`: non-ASCII bytes are dropped. -/
def asciiIgnore (bs : List Nat) : List Nat := bs.filter (· < 128)

/-- Python's `.strip(NUL)`: remove leading and trailing NUL bytes. -/
def stripNul (bs : List Nat) : List Nat :=
  (((bs.dropWhile (· = 0)).reverse).dropWhile (· = 0)).reverse

/-- The decoded string value of one configuration register (kept as a byte
list: ASCII decode with ignored errors, then NUL-trimmed). -/
def decodeConfigValue (bs : List Nat) : List Nat := stripNul (asciiIgnore bs)

/-- The loop body of `USB4000.query_config`, over the remaining register
indices: for each index `x`, write `[0x05, x]`, read 64 bytes (1000 ms),
require the response to start with the echo `[0x05, x]`, and append the
decoded remainder to the accumulator under the register's fixed name. -/
def query_config_loop :
    List Nat → TState → List (String × List Nat) →
      Except DriverError (List (String × List Nat) × TState)
  | [], s, acc => .ok (acc, s)
  | x :: rest, s, acc =>
    let s := doWrite s .cmdOut [0x05, x]
    match doRead s .cmdIn 64 1000 with
    | .error e => .error e
    | .ok (resp, s) =>
      if resp.take 2 = [0x05, x] then
        query_config_loop rest s
          (acc ++ [(config_regs x, decodeConfigValue (resp.drop 2))])
      else
        .error .ProtocolError

/-- `USB4000.query_config`: query registers 0..18 in order and collect the
name → value mapping; any echo mismatch aborts the whole query. -/
def query_config (s : TState) :
    Except DriverError (List (String × List Nat) × TState) :=
  query_config_loop (List.range 19) s []

/-- The fixed thermistor scale factor `0.003906` of `read_temp`, as an
exact rational. -/
def tempScale : ℚ := 3906 / 1000000

/-- `USB4000.read_temp`: write opcode 0x6C, read 3 bytes (1000 ms), require
the first response byte to be 0x08, decode bytes 1–2 as a signed
little-endian 16-bit integer `t` and return `t * 0.003906`. -/
def read_temp (s : TState) : Except DriverError (ℚ × TState) :=
  let s := doWrite s .cmdOut [0x6C]
  match doRead s .cmdIn 3 1000 with
  | .error e => .error e
  | .ok (resp, s) =>
    if resp.take 1 = [0x08] then
      .ok ((i16le (resp.getD 1 0) (resp.getD 2 0) : ℚ) * tempScale, s)
    else
      .error .ProtocolError

/-- `USB4000.firmware_version`: write opcode 0x6B with sub-index 0x04, read
3 bytes (200 ms), and decode bytes 1–2 as an unsigned big-endian 16-bit
integer; the echo check on byte 0 is commented out in the source, so no
validation is performed. -/
def firmware_version (s : TState) : Except DriverError (Nat × TState) :=
  let s := doWrite s .cmdOut [0x6B, 0x04]
  match doRead s .cmdIn 3 200 with
  | .error e => .error e
  | .ok (resp, s) => .ok (u16be (resp.getD 1 0) (resp.getD 2 0), s)

/-- A Python argument value as the setters see it: an `int`, or a value of
some other type (`float`, `str`, `None`), on which `isinstance(-, int)` is
false and the setters do nothing. -/
inductive PyVal
  | int (n : ℤ)
  | float (q : ℚ)
  | str (s : String)
  | none
deriving DecidableEq, Repr

/-- Whether `isinstance(v, int)` holds. -/
def PyVal.isInt : PyVal → Bool
  | .int _ => true
  | _ => false

/-- `USB4000.set_integration_time`: for an `int` argument, clamp to
[10, 65535000] (first raising to 10, then capping at 65535000, as the
source's two successive `if`s do), write the 5-byte message
`0x02 :: little-endian u32`, and return the written byte count; for any
other argument type, do nothing and return `None`. -/
def set_integration_time (s : TState) (dt : PyVal) :
    Except DriverError (Option Nat × TState) :=
  match dt with
  | .int n =>
    let n1 : ℤ := if n < 10 then 10 else n
    let n2 : ℤ := if n1 > 65535000 then 65535000 else n1
    let cmd : List Nat := 0x02 :: u32leBytes n2.toNat
    .ok (some cmd.length, doWrite s .cmdOut cmd)
  | _ => .ok (Option.none, s)

/-- `USB4000.set_trigger_mode`: for an `int` argument in the range of
struct format `<H`, write the 3-byte message `0x0A :: little-endian u16`
and return the written byte count (an out-of-range int raises
struct.error); for any other argument type, do nothing and return
`None`. -/
def set_trigger_mode (s : TState) (mode : PyVal) :
    Except DriverError (Option Nat × TState) :=
  match mode with
  | .int n =>
    if 0 ≤ n ∧ n < 65536 then
      let cmd : List Nat := 0x0A :: u16leBytes n.toNat
      .ok (some cmd.length, doWrite s .cmdOut cmd)
    else
      .error .StructError
  | _ => .ok (Option.none, s)

/-- The decoded status record of `USB4000.get_status`. -/
structure DeviceStatus where
  num_pixels : Nat
  integration_time : Nat
  lamp_enable : Bool
  trigger_mode : Nat
  acq_status : Nat
  packets_in_spectra : Nat
  power_down : Bool
  packet_count : Nat
  usb_speed : Nat
deriving DecidableEq, Repr

/-- `USB4000.get_status`: write opcode 0xFE, read 16 bytes (1000 ms), and
decode the fixed little-endian offsets of the status block; bytes 12–13
are ignored. -/
def get_status (s : TState) : Except DriverError (DeviceStatus × TState) :=
  let s := doWrite s .cmdOut [0xFE]
  match doRead s .cmdIn 16 1000 with
  | .error e => .error e
  | .ok (resp, s) =>
    .ok ({ num_pixels := u16le (resp.getD 0 0) (resp.getD 1 0)
           integration_time :=
             u32le (resp.getD 2 0) (resp.getD 3 0) (resp.getD 4 0) (resp.getD 5 0)
           lamp_enable := resp.getD 6 0 != 0
           trigger_mode := resp.getD 7 0
           acq_status := resp.getD 8 0
           packets_in_spectra := resp.getD 9 0
           power_down := resp.getD 10 0 != 0
           packet_count := resp.getD 11 0
           usb_speed := resp.getD 14 0 }, s)

theorem doRead_ok (s : TState) (c : Chan) (n timeout : Nat)
    (h : n ≤ (chanStream s c).length) :
    doRead s c n timeout =
      .ok ((chanStream s c).take n,
        setStream { s with trace := s.trace ++ [Ev.rd c n timeout] } c
          ((chanStream s c).drop n)) := by
  simp [doRead, h]

/-- A full run of `request_spectra` on a transport whose low channel holds
2048 bytes (plus anything further) and whose high channel holds 5632 bytes
followed by a sync byte `b`: the run performs exactly the write of opcode
0x09 and the three reads, and succeeds exactly when `b = 0x69`. -/
theorem request_spectra_run (loB restLo hiB restHi cmdIn0 : List Nat)
    (b : Nat) (tr : List Ev)
    (hlo : loB.length = 2048) (hhi : hiB.length = 5632) :
    request_spectra ⟨loB ++ restLo, hiB ++ b :: restHi, cmdIn0, tr⟩ =
      if b = 0x69 then
        .ok (frombufferU16LE loB ++ frombufferU16LE hiB,
          ⟨restLo, restHi, cmdIn0,
            tr ++ [Ev.wr .cmdOut [0x09], Ev.rd .specLo 2048 20,
                   Ev.rd .specHi 5632 20, Ev.rd .specHi 1 20]⟩)
      else
        .error .ProtocolError := by
  have h4 : (512 * 4 : Nat) = 2048 := by norm_num
  have h11 : (512 * 11 : Nat) = 5632 := by norm_num
  rw [request_spectra]
  rw [doWrite]
  simp only [h4, h11]
  rw [doRead_ok _ _ _ _ (by simp [chanStream, hlo])]
  simp only [chanStream, setStream]
  rw [List.take_left' hlo, List.drop_left' hlo]
  rw [doRead_ok _ _ _ _ (by simp [chanStream, hhi])]
  simp only [chanStream, setStream]
  rw [List.take_left' hhi, List.drop_left' hhi]
  rw [doRead_ok _ _ _ _ (by simp [chanStream])]
  simp only [chanStream, setStream]
  simp only [List.take_cons, List.take_zero, List.drop_succ_cons, List.drop_zero,
    List.headD_cons, List.append_assoc, List.cons_append, List.nil_append]
  rfl

/-- C1: for every pair of low/high spectral channel contents of the sizes
the code reads (2048 bytes low, 5632 bytes high) followed by the correct
sync byte, `request_spectra` returns exactly 3840 unsigned 16-bit
little-endian samples: indices 0–1023 are the low-channel samples in
received order and indices 1024–3839 are the high-channel samples in
received order, with no reordering and no scaling. -/
theorem request_spectra_assembles (loB restLo hiB restHi c0 : List Nat)
    (tr : List Ev) (hlo : loB.length = 2048) (hhi : hiB.length = 5632)
    (hbl : ∀ b ∈ loB, b < 256) (hbh : ∀ b ∈ hiB, b < 256) :
    ∃ s', request_spectra ⟨loB ++ restLo, hiB ++ 0x69 :: restHi, c0, tr⟩ =
        .ok (frombufferU16LE loB ++ frombufferU16LE hiB, s') ∧
      (frombufferU16LE loB ++ frombufferU16LE hiB).length = 3840 ∧
      (frombufferU16LE loB ++ frombufferU16LE hiB).take 1024 =
        frombufferU16LE loB ∧
      (frombufferU16LE loB ++ frombufferU16LE hiB).drop 1024 =
        frombufferU16LE hiB ∧
      ∀ v ∈ frombufferU16LE loB ++ frombufferU16LE hiB, v < 65536 := by
  have hl : (frombufferU16LE loB).length = 1024 := by
    rw [frombufferU16LE_length, hlo]
  have hh : (frombufferU16LE hiB).length = 2816 := by
    rw [frombufferU16LE_length, hhi]
  refine ⟨⟨restLo, restHi, c0,
    tr ++ [Ev.wr .cmdOut [0x09], Ev.rd .specLo 2048 20,
           Ev.rd .specHi 5632 20, Ev.rd .specHi 1 20]⟩, ?_, ?_, ?_, ?_, ?_⟩
  · rw [request_spectra_run loB restLo hiB restHi c0 0x69 tr hlo hhi, if_pos rfl]
  · simp [hl, hh]
  · exact List.take_left' hl
  · exact List.drop_left' hl
  · intro v hv
    rcases List.mem_append.mp hv with h | h
    · exact frombufferU16LE_lt loB hbl v h
    · exact frombufferU16LE_lt hiB hbh v h

/-- C1 witness: a concrete transport (low channel all ones, high channel
all twos, correct sync byte) on which the assembly theorem applies. -/
theorem request_spectra_assembles_witness :
    ∃ s', request_spectra
        ⟨List.replicate 2048 1 ++ [], List.replicate 5632 2 ++ 0x69 :: [], [], []⟩ =
        .ok (frombufferU16LE (List.replicate 2048 1) ++
          frombufferU16LE (List.replicate 5632 2), s') ∧
      (frombufferU16LE (List.replicate 2048 1) ++
        frombufferU16LE (List.replicate 5632 2)).length = 3840 ∧
      (frombufferU16LE (List.replicate 2048 1) ++
        frombufferU16LE (List.replicate 5632 2)).take 1024 =
        frombufferU16LE (List.replicate 2048 1) ∧
      (frombufferU16LE (List.replicate 2048 1) ++
        frombufferU16LE (List.replicate 5632 2)).drop 1024 =
        frombufferU16LE (List.replicate 5632 2) ∧
      ∀ v ∈ frombufferU16LE (List.replicate 2048 1) ++
          frombufferU16LE (List.replicate 5632 2), v < 65536 :=
  request_spectra_assembles (List.replicate 2048 1) [] (List.replicate 5632 2)
    [] [] [] (by rw [List.length_replicate]) (by rw [List.length_replicate])
    (by intro b hb; have := List.eq_of_mem_replicate hb; omega)
    (by intro b hb; have := List.eq_of_mem_replicate hb; omega)

/-- C2: whenever the single trailing sync byte read from the high spectral
channel, after both segment reads, is any value other than 0x69,
`request_spectra` fails with ProtocolError (the typed error replacing the
source's assertion), for every transport returning such a byte. -/
theorem request_spectra_bad_sync (loB restLo hiB restHi c0 : List Nat)
    (b : Nat) (tr : List Ev) (hlo : loB.length = 2048)
    (hhi : hiB.length = 5632) (hb : b ≠ 0x69) :
    request_spectra ⟨loB ++ restLo, hiB ++ b :: restHi, c0, tr⟩ =
      .error .ProtocolError := by
  rw [request_spectra_run loB restLo hiB restHi c0 b tr hlo hhi, if_neg hb]

/-- C2 witness: a concrete transport whose sync byte is 0x42. -/
theorem request_spectra_bad_sync_witness :
    request_spectra
      ⟨List.replicate 2048 1 ++ [], List.replicate 5632 2 ++ 0x42 :: [], [], []⟩ =
      .error .ProtocolError :=
  request_spectra_bad_sync (List.replicate 2048 1) [] (List.replicate 5632 2)
    [] [] 0x42 [] (by rw [List.length_replicate]) (by rw [List.length_replicate])
    (by omega)

/-- C3 counterexample: on a concrete transport the successful run of
`request_spectra` records a 2048-byte read on the low spectral channel and
no 4096-byte read, refuting the claimed low-channel read size of 4096
bytes. -/
theorem request_spectra_low_read_cex :
    request_spectra
        ⟨List.replicate 2048 0, List.replicate 5632 0 ++ [0x69], [], []⟩ =
      .ok (frombufferU16LE (List.replicate 2048 0) ++
          frombufferU16LE (List.replicate 5632 0),
        ⟨[], [], [], [Ev.wr .cmdOut [0x09], Ev.rd .specLo 2048 20,
                      Ev.rd .specHi 5632 20, Ev.rd .specHi 1 20]⟩) ∧
    Ev.rd Chan.specLo 2048 20 ∈
      [Ev.wr Chan.cmdOut [0x09], Ev.rd Chan.specLo 2048 20,
       Ev.rd Chan.specHi 5632 20, Ev.rd Chan.specHi 1 20] ∧
    Ev.rd Chan.specLo 4096 20 ∉
      [Ev.wr Chan.cmdOut [0x09], Ev.rd Chan.specLo 2048 20,
       Ev.rd Chan.specHi 5632 20, Ev.rd Chan.specHi 1 20] := by
  refine ⟨?_, by decide, by decide⟩
  have h := request_spectra_run (List.replicate 2048 0) []
    (List.replicate 5632 0) [] [] 0x69 []
    (by rw [List.length_replicate]) (by rw [List.length_replicate])
  rw [if_pos rfl] at h
  simp only [List.append_nil, List.nil_append] at h
  exact h

/-- C3 amended: `request_spectra` reads exactly 2048 bytes (1024
little-endian u16 samples) from the low spectral channel and exactly 5632
bytes (2816 little-endian u16 samples) from the high spectral channel, in
that order, before reading the sync byte. -/
theorem request_spectra_read_sizes (loB restLo hiB restHi c0 : List Nat)
    (tr : List Ev) (hlo : loB.length = 2048) (hhi : hiB.length = 5632) :
    (frombufferU16LE loB).length = 1024 ∧
    (frombufferU16LE hiB).length = 2816 ∧
    request_spectra ⟨loB ++ restLo, hiB ++ 0x69 :: restHi, c0, tr⟩ =
      .ok (frombufferU16LE loB ++ frombufferU16LE hiB,
        ⟨restLo, restHi, c0,
          tr ++ [Ev.wr .cmdOut [0x09], Ev.rd .specLo 2048 20,
                 Ev.rd .specHi 5632 20, Ev.rd .specHi 1 20]⟩) := by
  refine ⟨by rw [frombufferU16LE_length, hlo], by rw [frombufferU16LE_length, hhi], ?_⟩
  rw [request_spectra_run loB restLo hiB restHi c0 0x69 tr hlo hhi, if_pos rfl]

/-- C3 amended witness: concrete transport of the sizes the code reads. -/
theorem request_spectra_read_sizes_witness :
    (frombufferU16LE (List.replicate 2048 3)).length = 1024 ∧
    (frombufferU16LE (List.replicate 5632 4)).length = 2816 ∧
    request_spectra
        ⟨List.replicate 2048 3 ++ [], List.replicate 5632 4 ++ 0x69 :: [], [], []⟩ =
      .ok (frombufferU16LE (List.replicate 2048 3) ++
          frombufferU16LE (List.replicate 5632 4),
        ⟨[], [], [],
          [] ++ [Ev.wr .cmdOut [0x09], Ev.rd .specLo 2048 20,
                 Ev.rd .specHi 5632 20, Ev.rd .specHi 1 20]⟩) :=
  request_spectra_read_sizes (List.replicate 2048 3) [] (List.replicate 5632 4)
    [] [] [] (by rw [List.length_replicate]) (by rw [List.length_replicate])

/-- A full run of `read_temp` on a transport whose command-in channel holds
at least 3 bytes: the echo check compares the first response byte against
the fixed value 0x08. -/
theorem read_temp_run (lo hi : List Nat) (b0 b1 b2 : Nat) (rest : List Nat)
    (tr : List Ev) :
    read_temp ⟨lo, hi, b0 :: b1 :: b2 :: rest, tr⟩ =
      if b0 = 0x08 then
        .ok ((i16le b1 b2 : ℚ) * tempScale,
          ⟨lo, hi, rest, tr ++ [Ev.wr .cmdOut [0x6C], Ev.rd .cmdIn 3 1000]⟩)
      else
        .error .ProtocolError := by
  rw [read_temp, doWrite]
  rw [doRead_ok _ _ _ _ (by simp [chanStream])]
  simp only [chanStream, setStream]
  simp only [List.take_succ_cons, List.take_zero, List.drop_succ_cons,
    List.drop_zero, List.getD_cons_succ, List.getD_cons_zero]
  by_cases hb : b0 = 0x08
  · subst hb
    simp
  · rw [if_neg (by simp [hb]), if_neg hb]

/-- C8: `read_temp` sends opcode 0x6C with no payload, reads a 3-byte
response (1000 ms timeout), fails with ProtocolError unless the first
response byte equals 0x08, decodes bytes 1–2 as a signed little-endian
16-bit integer `t`, and returns `t * 0.003906`; a negative raw value
yields a negative temperature. -/
theorem read_temp_spec (lo hi : List Nat) (b0 b1 b2 : Nat) (rest : List Nat)
    (tr : List Ev) :
    (b0 = 0x08 →
      read_temp ⟨lo, hi, b0 :: b1 :: b2 :: rest, tr⟩ =
        .ok ((i16le b1 b2 : ℚ) * tempScale,
          ⟨lo, hi, rest, tr ++ [Ev.wr .cmdOut [0x6C], Ev.rd .cmdIn 3 1000]⟩)) ∧
    (b0 ≠ 0x08 →
      read_temp ⟨lo, hi, b0 :: b1 :: b2 :: rest, tr⟩ = .error .ProtocolError) ∧
    (i16le b1 b2 < 0 → (i16le b1 b2 : ℚ) * tempScale < 0) := by
  refine ⟨fun hb => ?_, fun hb => ?_, fun ht => ?_⟩
  · rw [read_temp_run, if_pos hb]
  · rw [read_temp_run, if_neg hb]
  · have hpos : (0 : ℚ) < tempScale := by norm_num [tempScale]
    have hneg : ((i16le b1 b2 : ℤ) : ℚ) < 0 := by exact_mod_cast ht
    exact mul_neg_of_neg_of_pos hneg hpos

/-- C8 witness: the raw response `08 64 00` gives t = 100 and return value
exactly 0.3906. -/
theorem read_temp_spec_witness :
    read_temp ⟨[], [], [0x08, 0x64, 0x00], []⟩ =
      .ok ((0.3906 : ℚ),
        ⟨[], [], [], [] ++ [Ev.wr .cmdOut [0x6C], Ev.rd .cmdIn 3 1000]⟩) := by
  have h := (read_temp_spec [] [] 0x08 0x64 0x00 [] []).1 rfl
  rw [h]
  norm_num [i16le, u16le, tempScale]

/-- C9: `firmware_version` sends opcode 0x6B followed by sub-index 0x04,
reads a 3-byte response (200 ms timeout), performs no validation on
response byte 0 (any first byte succeeds), and returns bytes 1–2 decoded
as an unsigned big-endian 16-bit integer; in particular the raw response
`04 01 2C` decodes to 300. -/
theorem firmware_version_spec (lo hi : List Nat) (b0 b1 b2 : Nat)
    (rest : List Nat) (tr : List Ev) :
    firmware_version ⟨lo, hi, b0 :: b1 :: b2 :: rest, tr⟩ =
      .ok (u16be b1 b2,
        ⟨lo, hi, rest, tr ++ [Ev.wr .cmdOut [0x6B, 0x04], Ev.rd .cmdIn 3 200]⟩) ∧
    firmware_version ⟨[], [], [0x04, 0x01, 0x2C], []⟩ =
      .ok (300, ⟨[], [], [], [Ev.wr .cmdOut [0x6B, 0x04], Ev.rd .cmdIn 3 200]⟩) := by
  constructor
  · rw [firmware_version, doWrite, doRead_ok _ _ _ _ (by simp [chanStream])]
    simp only [chanStream, setStream, List.take_succ_cons, List.take_zero,
      List.drop_succ_cons, List.drop_zero, List.getD_cons_succ, List.getD_cons_zero,
      List.append_assoc, List.cons_append, List.nil_append]
  · rfl

theorem query_config_loop_echo : ∀ (xs : List Nat) (s : TState)
    (acc : List (String × List Nat)) (r : List (String × List Nat) × TState),
    query_config_loop xs s acc = .ok r →
    ∀ j, j < xs.length → (s.cmdIn.drop (64 * j)).take 2 = [0x05, xs.getD j 0]
  | [], _, _, _ => by
    intro _ j hj
    simp at hj
  | x :: rest, s, acc, r => by
    intro h j hj
    rw [query_config_loop] at h
    split at h
    · exact absurd h (by simp)
    · rename_i resp s2 heq
      split at h
      · rename_i hecho
        rw [doRead] at heq
        split at heq
        · rename_i h64
          simp only [chanStream, doWrite] at h64 heq
          injection heq with heq1
          injection heq1 with hresp hs2
          subst hresp
          subst hs2
          have ih := query_config_loop_echo rest _ _ r h
          simp only [setStream, chanStream] at ih
          cases j with
          | zero =>
            simp only [Nat.mul_zero, List.drop_zero, List.getD_cons_zero]
            rw [List.take_take] at hecho
            simpa using hecho
          | succ j =>
            have hj' : j < rest.length := by
              simpa using hj
            have hd := ih j hj'
            rw [List.drop_drop] at hd
            have hm : 64 + 64 * j = 64 * (j + 1) := by ring
            rw [hm] at hd
            simpa using hd
        · exact absurd heq (by simp)
      · exact absurd h (by simp)

theorem query_config_loop_ok : ∀ (xs : List Nat) (blocks : List (List Nat))
    (extra lo hi : List Nat) (tr : List Ev) (acc : List (String × List Nat)),
    blocks.length = xs.length →
    (∀ j, j < xs.length → (blocks.getD j []).length = 64) →
    (∀ j, j < xs.length → (blocks.getD j []).take 2 = [0x05, xs.getD j 0]) →
    ∃ tr', query_config_loop xs ⟨lo, hi, blocks.flatten ++ extra, tr⟩ acc =
      .ok (acc ++ (xs.zip blocks).map
          (fun p => (config_regs p.1, decodeConfigValue (p.2.drop 2))),
        ⟨lo, hi, extra, tr'⟩)
  | [], blocks, extra, lo, hi, tr, acc => by
    intro hlen _ _
    have hb : blocks = [] := List.length_eq_zero.mp (by simpa using hlen)
    subst hb
    exact ⟨tr, by simp [query_config_loop]⟩
  | x :: rest, [], extra, lo, hi, tr, acc => by
    intro hlen _ _
    simp at hlen
  | x :: rest, b :: bs, extra, lo, hi, tr, acc => by
    intro hlen hsz hecho
    have hb64 : b.length = 64 := by simpa using hsz 0 (by simp)
    have hbe : b.take 2 = [0x05, x] := by simpa using hecho 0 (by simp)
    rw [query_config_loop, doWrite]
    rw [doRead_ok _ _ _ _ (by simp [chanStream, List.flatten_cons, hb64])]
    simp only [chanStream, setStream, List.flatten_cons]
    rw [List.append_assoc, List.take_left' hb64, List.drop_left' hb64]
    rw [if_pos hbe]
    have ih := query_config_loop_ok rest bs extra lo hi
      (tr ++ [Ev.wr Chan.cmdOut [0x05, x]] ++ [Ev.rd Chan.cmdIn 64 1000])
      (acc ++ [(config_regs x, decodeConfigValue (b.drop 2))])
      (by simpa using hlen)
      (fun j hj => by simpa using hsz (j + 1) (by simpa using hj))
      (fun j hj => by simpa using hecho (j + 1) (by simpa using hj))
    obtain ⟨tr', ih⟩ := ih
    exact ⟨tr', by rw [ih]; simp [List.zip_cons_cons]⟩

theorem query_config_loop_bad : ∀ (xs : List Nat) (blocks : List (List Nat))
    (extra lo hi : List Nat) (tr : List Ev) (acc : List (String × List Nat)),
    blocks.length = xs.length →
    (∀ j, j < xs.length → (blocks.getD j []).length = 64) →
    (∃ j, j < xs.length ∧ (blocks.getD j []).take 2 ≠ [0x05, xs.getD j 0]) →
    query_config_loop xs ⟨lo, hi, blocks.flatten ++ extra, tr⟩ acc =
      .error .ProtocolError
  | [], blocks, extra, lo, hi, tr, acc => by
    intro _ _ hbad
    obtain ⟨j, hj, _⟩ := hbad
    simp at hj
  | x :: rest, [], extra, lo, hi, tr, acc => by
    intro hlen _ _
    simp at hlen
  | x :: rest, b :: bs, extra, lo, hi, tr, acc => by
    intro hlen hsz hbad
    have hb64 : b.length = 64 := by simpa using hsz 0 (by simp)
    rw [query_config_loop, doWrite]
    rw [doRead_ok _ _ _ _ (by simp [chanStream, List.flatten_cons, hb64])]
    simp only [chanStream, setStream, List.flatten_cons]
    rw [List.append_assoc, List.take_left' hb64, List.drop_left' hb64]
    by_cases hbe : b.take 2 = [0x05, x]
    · rw [if_pos hbe]
      apply query_config_loop_bad rest bs extra lo hi _ _
        (by simpa using hlen)
        (fun j hj => by simpa using hsz (j + 1) (by simpa using hj))
      obtain ⟨j, hj, hne⟩ := hbad
      cases j with
      | zero => simp at hne; exact absurd hbe hne
      | succ j =>
        exact ⟨j, by simpa using hj, by simpa using hne⟩
    · rw [if_neg hbe]

/-- C4 counterexample: `read_temp` sends opcode 0x6C, yet a response whose
first byte is that very opcode is rejected with ProtocolError, while a
response whose first byte is the fixed value 0x08 (not the sent opcode) is
accepted — so the validated leading byte is not the opcode that was sent. -/
theorem read_temp_echo_cex :
    read_temp ⟨[], [], [0x6C, 0x64, 0x00], []⟩ = .error .ProtocolError ∧
    read_temp ⟨[], [], [0x08, 0x64, 0x00], []⟩ =
      .ok ((i16le 0x64 0x00 : ℚ) * tempScale,
        ⟨[], [], [], [] ++ [Ev.wr .cmdOut [0x6C], Ev.rd .cmdIn 3 1000]⟩) := by
  constructor
  · rw [read_temp_run, if_neg (by omega)]
  · rw [read_temp_run, if_pos rfl]

/-- C4 amended: `query_config` validates, for each register index `x`, that
the response starts with the echo of the sent opcode and parameter
`(0x05, x)`; `read_temp`, however, validates its leading response byte
against the fixed value 0x08, which is not the sent opcode 0x6C. -/
theorem echo_validation_spec :
    (∀ (s : TState) (r : List (String × List Nat) × TState),
      query_config s = .ok r →
      ∀ j, j < 19 → (s.cmdIn.drop (64 * j)).take 2 = [0x05, j]) ∧
    (∀ (lo hi : List Nat) (b1 b2 : Nat) (rest : List Nat) (tr : List Ev),
      read_temp ⟨lo, hi, 0x08 :: b1 :: b2 :: rest, tr⟩ =
        .ok ((i16le b1 b2 : ℚ) * tempScale,
          ⟨lo, hi, rest, tr ++ [Ev.wr .cmdOut [0x6C], Ev.rd .cmdIn 3 1000]⟩)) ∧
    (∀ (lo hi : List Nat) (b0 b1 b2 : Nat) (rest : List Nat) (tr : List Ev),
      b0 ≠ 0x08 →
      read_temp ⟨lo, hi, b0 :: b1 :: b2 :: rest, tr⟩ = .error .ProtocolError) ∧
    (0x08 : Nat) ≠ 0x6C := by
  refine ⟨?_, ?_, ?_, by omega⟩
  · intro s r h j hj
    have he := query_config_loop_echo (List.range 19) s [] r h j (by simpa using hj)
    rwa [show (List.range 19).getD j 0 = j by
      simp [List.getD, List.getElem?_range hj]] at he
  · intro lo hi b1 b2 rest tr
    rw [read_temp_run, if_pos rfl]
  · intro lo hi b0 b1 b2 rest tr hb
    rw [read_temp_run, if_neg hb]

/-- A transport whose 19 configuration-register responses all echo
correctly: block `x` is `[0x05, x]` followed by 62 NUL bytes. -/
def okBlocks : List (List Nat) :=
  (List.range 19).map (fun x => 0x05 :: x :: List.replicate 62 0)

theorem okBlocks_getD (j : Nat) (hj : j < 19) :
    okBlocks.getD j [] = 0x05 :: j :: List.replicate 62 0 := by
  simp [okBlocks, List.getD, List.getElem?_map, List.getElem?_range hj]

theorem okBlocks_length : okBlocks.length = 19 := by
  simp [okBlocks]

theorem okBlocks_sizes : ∀ j, j < 19 → (okBlocks.getD j []).length = 64 := by
  intro j hj
  rw [okBlocks_getD j hj]
  simp

theorem okBlocks_echo : ∀ j, j < 19 → (okBlocks.getD j []).take 2 = [0x05, j] := by
  intro j hj
  rw [okBlocks_getD j hj]
  rfl

/-- C5: for a transport whose response to every register query 0..18
begins with the correct two-byte echo `(0x05, index)`, `query_config`
returns a mapping whose key list is exactly the 19 fixed register names in
order; if any single register's echo bytes mismatch, the whole query
aborts with ProtocolError (the typed error replacing the assertion), so no
partial mapping is returned to the caller. -/
theorem query_config_spec (blocks : List (List Nat)) (extra lo hi : List Nat)
    (tr : List Ev) (hlen : blocks.length = 19)
    (hsz : ∀ j, j < 19 → (blocks.getD j []).length = 64) :
    ((∀ j, j < 19 → (blocks.getD j []).take 2 = [0x05, j]) →
      ∃ m tr', query_config ⟨lo, hi, blocks.flatten ++ extra, tr⟩ =
          .ok (m, ⟨lo, hi, extra, tr'⟩) ∧
        m.map Prod.fst =
          ["serial_number", "0_order_wavelength_coeff",
           "1_order_wavelength_coeff", "2_order_wavelength_coeff",
           "3_order_wavelength_coeff", "stray_light_constant",
           "0_order_nonlinear_coeff", "1_order_nonlinear_coeff",
           "2_order_nonlinear_coeff", "3_order_nonlinear_coeff",
           "4_order_nonlinear_coeff", "5_order_nonlinear_coeff",
           "6_order_nonlinear_coeff", "7_order_nonlinear_coeff",
           "polynomial_order", "bench_configuration", "USB4000_config",
           "autonull", "baud_rate"]) ∧
    ((∃ j, j < 19 ∧ (blocks.getD j []).take 2 ≠ [0x05, j]) →
      query_config ⟨lo, hi, blocks.flatten ++ extra, tr⟩ =
        .error .ProtocolError) := by
  have hrange : ∀ j, j < 19 → (List.range 19).getD j 0 = j := by
    intro j hj
    simp [List.getD, List.getElem?_range hj]
  constructor
  · intro hech
    obtain ⟨tr', hok⟩ := query_config_loop_ok (List.range 19) blocks extra lo hi tr []
      (by simp [hlen])
      (by intro j hj; exact hsz j (by simpa using hj))
      (by intro j hj
          rw [hrange j (by simpa using hj)]
          exact hech j (by simpa using hj))
    refine ⟨_, tr', by rw [query_config, hok], ?_⟩
    rw [List.nil_append, List.map_map]
    have hfst : (Prod.fst ∘ fun p : Nat × List Nat =>
        (config_regs p.1, decodeConfigValue (p.2.drop 2))) =
        config_regs ∘ Prod.fst := rfl
    rw [hfst, ← List.map_map, List.map_fst_zip _ _ (by simp [hlen])]
    rfl
  · intro hbadj
    obtain ⟨j, hj, hne⟩ := hbadj
    rw [query_config]
    exact query_config_loop_bad (List.range 19) blocks extra lo hi tr []
      (by simp [hlen])
      (by intro i hi2; exact hsz i (by simpa using hi2))
      ⟨j, by simpa using hj, by rw [hrange j hj]; exact hne⟩

/-- C5 witness: the all-correct transport `okBlocks` yields a mapping with
exactly the 19 fixed register names as keys. -/
theorem query_config_spec_witness :
    ∃ m tr', query_config ⟨[], [], okBlocks.flatten ++ [], []⟩ =
        .ok (m, ⟨[], [], [], tr'⟩) ∧
      m.map Prod.fst =
        ["serial_number", "0_order_wavelength_coeff",
         "1_order_wavelength_coeff", "2_order_wavelength_coeff",
         "3_order_wavelength_coeff", "stray_light_constant",
         "0_order_nonlinear_coeff", "1_order_nonlinear_coeff",
         "2_order_nonlinear_coeff", "3_order_nonlinear_coeff",
         "4_order_nonlinear_coeff", "5_order_nonlinear_coeff",
         "6_order_nonlinear_coeff", "7_order_nonlinear_coeff",
         "polynomial_order", "bench_configuration", "USB4000_config",
         "autonull", "baud_rate"] :=
  (query_config_spec okBlocks [] [] [] [] okBlocks_length okBlocks_sizes).1
    okBlocks_echo

/-- C4 witness: concrete instances of each validated exchange — the echo
of register 3 in a successful full configuration query, an accepted and a
rejected temperature response. -/
theorem echo_validation_spec_witness :
    ((okBlocks.flatten ++ ([] : List Nat)).drop (64 * 3)).take 2 = [0x05, 3] ∧
    read_temp ⟨[], [], [0x08, 0x01, 0x00], []⟩ =
      .ok ((i16le 0x01 0x00 : ℚ) * tempScale,
        ⟨[], [], [], [] ++ [Ev.wr .cmdOut [0x6C], Ev.rd .cmdIn 3 1000]⟩) ∧
    read_temp ⟨[], [], [0x00, 0x01, 0x00], []⟩ = .error .ProtocolError := by
  obtain ⟨tr', hok⟩ := query_config_loop_ok (List.range 19) okBlocks [] [] [] [] []
    (by simp [okBlocks_length])
    (by intro j hj; exact okBlocks_sizes j (by simpa using hj))
    (by intro j hj
        rw [show (List.range 19).getD j 0 = j by
          simp [List.getD, List.getElem?_range (by simpa using hj : j < 19)]]
        exact okBlocks_echo j (by simpa using hj))
  have hq : query_config ⟨[], [], okBlocks.flatten ++ [], []⟩ =
      .ok ([] ++ ((List.range 19).zip okBlocks).map
          (fun p => (config_regs p.1, decodeConfigValue (p.2.drop 2))),
        ⟨[], [], [], tr'⟩) := by
    rw [query_config]
    exact hok
  exact ⟨echo_validation_spec.1 _ _ hq 3 (by omega),
    echo_validation_spec.2.1 [] [] 0x01 0x00 [] [],
    echo_validation_spec.2.2.1 [] [] 0x00 0x01 0x00 [] [] (by omega)⟩

/-- C6: for every integer dt, `set_integration_time` writes to the
command-out channel exactly the 5-byte message of opcode 0x02 followed by
the 4-byte little-endian encoding of the clamped value — dt < 10 encodes
10, dt > 65535000 encodes 65535000, dt in [10, 65535000] encodes dt
unchanged — and reads no response: the transport state gains exactly the
one write event. -/
theorem set_integration_time_spec (s : TState) (n : ℤ) :
    (∀ c : Nat, (0x02 :: u32leBytes c).length = 5) ∧
    (n < 10 →
      set_integration_time s (.int n) =
        .ok (some 5,
          { s with trace := s.trace ++ [Ev.wr .cmdOut (0x02 :: u32leBytes 10)] })) ∧
    (n > 65535000 →
      set_integration_time s (.int n) =
        .ok (some 5,
          { s with trace :=
              s.trace ++ [Ev.wr .cmdOut (0x02 :: u32leBytes 65535000)] })) ∧
    (10 ≤ n → n ≤ 65535000 →
      set_integration_time s (.int n) =
        .ok (some 5,
          { s with trace :=
              s.trace ++ [Ev.wr .cmdOut (0x02 :: u32leBytes n.toNat)] })) := by
  refine ⟨fun c => rfl, fun h => ?_, fun h => ?_, fun h1 h2 => ?_⟩
  · simp [set_integration_time, doWrite, u32leBytes, h,
      show ¬(10 : ℤ) > 65535000 by omega]
  · simp [set_integration_time, doWrite, u32leBytes, h, show ¬n < 10 by omega]
  · simp [set_integration_time, doWrite, u32leBytes, show ¬n < 10 by omega,
      show ¬n > 65535000 by omega]

/-- C6 witness: dt = 3 is clamped and encoded as 10. -/
theorem set_integration_time_spec_witness :
    set_integration_time ⟨[], [], [], []⟩ (.int 3) =
      .ok (some 5, ⟨[], [], [], [] ++ [Ev.wr .cmdOut (0x02 :: u32leBytes 10)]⟩) :=
  (set_integration_time_spec ⟨[], [], [], []⟩ 3).2.1 (by omega)

/-- C7: `get_status` decodes its 16-byte response at fixed little-endian
offsets (u16 pixel count at 0, u32 integration time at 2, booleans at 6
and 10, single bytes at 7, 8, 9, 11 and 14, bytes 12–13 ignored); in
particular the literal status block
`02 00 10 27 00 00 01 00 00 01 00 05 00 00 02 00` decodes to
pixel_count 2, integration_time 10000, lamp_enable true, trigger_mode 0,
acq_status 0, packets_in_spectra 1, power_down false, packet_count 5,
usb_speed 2. -/
theorem get_status_spec (lo hi : List Nat)
    (b0 b1 b2 b3 b4 b5 b6 b7 b8 b9 b10 b11 b12 b13 b14 b15 : Nat)
    (rest : List Nat) (tr : List Ev) :
    get_status ⟨lo, hi,
        b0 :: b1 :: b2 :: b3 :: b4 :: b5 :: b6 :: b7 :: b8 :: b9 :: b10 ::
          b11 :: b12 :: b13 :: b14 :: b15 :: rest, tr⟩ =
      .ok ({ num_pixels := u16le b0 b1
             integration_time := u32le b2 b3 b4 b5
             lamp_enable := b6 != 0
             trigger_mode := b7
             acq_status := b8
             packets_in_spectra := b9
             power_down := b10 != 0
             packet_count := b11
             usb_speed := b14 },
        ⟨lo, hi, rest, tr ++ [Ev.wr .cmdOut [0xFE], Ev.rd .cmdIn 16 1000]⟩) ∧
    get_status ⟨[], [],
        [0x02, 0x00, 0x10, 0x27, 0x00, 0x00, 0x01, 0x00, 0x00, 0x01, 0x00,
         0x05, 0x00, 0x00, 0x02, 0x00], []⟩ =
      .ok ({ num_pixels := 2
             integration_time := 10000
             lamp_enable := true
             trigger_mode := 0
             acq_status := 0
             packets_in_spectra := 1
             power_down := false
             packet_count := 5
             usb_speed := 2 },
        ⟨[], [], [], [Ev.wr .cmdOut [0xFE], Ev.rd .cmdIn 16 1000]⟩) := by
  constructor
  · rw [get_status, doWrite, doRead_ok _ _ _ _ (by simp [chanStream])]
    simp only [chanStream, setStream, List.take_succ_cons, List.take_zero,
      List.drop_succ_cons, List.drop_zero, List.getD_cons_succ,
      List.getD_cons_zero, List.append_assoc, List.cons_append,
      List.nil_append]
  · rfl

/-- C10: for every argument that is not an integer, `set_integration_time`
and `set_trigger_mode` write nothing to any transport channel (the state
is returned unchanged), raise no error, and return None — a silent
no-op. -/
theorem setters_non_int_noop (s : TState) (v : PyVal) (h : v.isInt = false) :
    set_integration_time s v = .ok (Option.none, s) ∧
    set_trigger_mode s v = .ok (Option.none, s) := by
  cases v with
  | int n => simp [PyVal.isInt] at h
  | float q => exact ⟨rfl, rfl⟩
  | str a => exact ⟨rfl, rfl⟩
  | none => exact ⟨rfl, rfl⟩

/-- C10 witness: a string argument is a silent no-op for both setters. -/
theorem setters_non_int_noop_witness :
    set_integration_time ⟨[], [], [], []⟩ (.str "sixty") =
      .ok (Option.none, ⟨[], [], [], []⟩) ∧
    set_trigger_mode ⟨[], [], [], []⟩ (.str "sixty") =
      .ok (Option.none, ⟨[], [], [], []⟩) :=
  setters_non_int_noop ⟨[], [], [], []⟩ (.str "sixty") rfl
